import Mathlib

/-!
Verification of the resource-lifecycle core of the `lxd` Rust library
(`system76/lxd-rs`): a typed veneer over the `lxc` command-line tool.

The embedding models the external executable as an oracle (`World`): for
each argument vector it yields an exit status and, for the
output-capturing path, captured standard output.  Captured output is
represented at the boundary where the JSON text parser has already run
(`Except String Json`): the byte-level text parse is external library
behaviour (`serde_json`), out of scope per the specification, while the
typed decoding of the JSON shape into `Info`/`Image` records is modelled
explicitly.  Every operation is embedded as a function returning its
result together with the trace of argument vectors it passed to the
executable, one entry per spawned process.
-/

namespace Lxd

/-- An argument vector passed to the external `lxc` executable. -/
abbrev Args := List String

/-- Exit status of a spawned process: the success flag consulted by
`status.success()`, and the rendering used by the `Display` format. -/
structure ExitStatus where
  success : Bool
  descr : String
deriving DecidableEq

/-- The `io::ErrorKind` values the library constructs errors with. -/
inductive ErrorKind
  | notFound
  | other
deriving DecidableEq

/-- An `io::Error` as constructed by the library: a kind plus a message. -/
structure IoError where
  kind : ErrorKind
  message : String
deriving DecidableEq

/-- A JSON value, the shape `serde_json` hands to the derived
deserializers.  Numbers are naturals: every numeric field of the
repository's records is `usize` or `u64`. -/
inductive Json
  | null
  | bool (b : Bool)
  | str (s : String)
  | num (n : Nat)
  | arr (elems : List Json)
  | obj (fields : List (String × Json))

/-- The external world: what the `lxc` executable does for a given
argument vector.  `status` is the exit status of the spawned process;
`stdout` is the captured output as seen by the JSON text parser (a text
parse failure carries the parser's message).  Spawning itself always
succeeds in this model: a spawn failure is propagated verbatim by the
source (`cmd.spawn()?`) without the library constructing an error. -/
structure World where
  status : Args → ExitStatus
  stdout : Args → Except String Json

/-- Rust `{:?}` rendering of the argument slice, as interpolated into
command-failure messages. -/
def reprArgs (args : Args) : String :=
  "[" ++ String.intercalate ", " (args.map (fun a => "\"" ++ a ++ "\"")) ++ "]"

/-- The message of the error built when the spawned process exits with a
non-success status: it carries the full argument vector and the status. -/
def lxcFailMsg (args : Args) (st : ExitStatus) : String :=
  "LXD " ++ reprArgs args ++ " failed with " ++ st.descr

/-- The fire-and-check-status invocation path (`fn lxc` in `lib.rs`):
spawn, wait, and translate a non-success exit status into an
`ErrorKind::Other` error carrying the arguments and status. -/
def lxc (w : World) (args : Args) : Except IoError Unit :=
  let st := w.status args
  if st.success then .ok () else .error ⟨.other, lxcFailMsg args st⟩

/-- The output-capturing invocation path (`fn lxc_output` in `lib.rs`):
on success the captured bytes are returned (here: as already seen by the
JSON text parser); a non-success exit status becomes the same
`ErrorKind::Other` error shape as `lxc`. -/
def lxc_output (w : World) (args : Args) : Except IoError (Except String Json) :=
  let st := w.status args
  if st.success then .ok (w.stdout args) else .error ⟨.other, lxcFailMsg args st⟩

/-- LXD host location (`location.rs`): local host or named remote host. -/
inductive Location
  | Local
  | Remote (remote : String)
deriving DecidableEq

/-- The name-qualification rule of the specification: a remote location
prefixes the name with `host:`, a local location leaves it unchanged. -/
def qualifyName (location : Location) (name : String) : String :=
  match location with
  | .Local => name
  | .Remote remote => remote ++ ":" ++ name

/-- An LXD ephemeral container handle (`container.rs`): owns its full
(qualified) name. -/
structure Container where
  name : String
deriving DecidableEq

/-- `Container::new` (`container.rs`): computes the full name from the
location, launches an ephemeral instance on the default bridge, then
runs `dhclient` inside it to wait for the network; either failure aborts
construction.  Returns the result and the trace of issued commands. -/
def Container.newT (w : World) (location : Location) (name base : String) :
    Except IoError Container × List Args :=
  let full_name :=
    match location with
    | Location.Local => name
    | Location.Remote remote => remote ++ ":" ++ name
  let launchArgs : Args := ["launch", base, full_name, "-e", "-n", "lxdbr0"]
  match lxc w launchArgs with
  | .error e => (.error e, [launchArgs])
  | .ok _ =>
    let dhclientArgs : Args :=
      ["exec", full_name, "--mode=non-interactive", "-n", "--", "dhclient"]
    match lxc w dhclientArgs with
    | .error e => (.error e, [launchArgs, dhclientArgs])
    | .ok _ => (.ok ⟨full_name⟩, [launchArgs, dhclientArgs])

/-- The first argument vector issued by `Container::new`, for a full
name `fn`: launch an ephemeral instance on the default bridge. -/
def launchArgs (base fn : String) : Args := ["launch", base, fn, "-e", "-n", "lxdbr0"]

/-- The second argument vector issued by `Container::new`: the
non-interactive `dhclient` probe that waits for the network. -/
def dhclientArgs (fn : String) : Args :=
  ["exec", fn, "--mode=non-interactive", "-n", "--", "dhclient"]

/-- The argument vector of `Container::push` (`container.rs`): the
destination is `<full-name>/<dest>` verbatim, and `recursive` inserts
`-r` after `file push`. -/
def Container.pushArgs (c : Container) (source dest : String) (recursive : Bool) : Args :=
  if recursive then
    ["file", "push", "-r", source, c.name ++ "/" ++ dest]
  else
    ["file", "push", source, c.name ++ "/" ++ dest]

/-- `Container::push`: one `lxc` invocation with `pushArgs`. -/
def Container.pushT (w : World) (c : Container) (source dest : String) (recursive : Bool) :
    Except IoError Unit × List Args :=
  (lxc w (Container.pushArgs c source dest recursive),
   [Container.pushArgs c source dest recursive])

/-- The argument vector issued by `Container`'s `Drop` impl. -/
def stopArgs (c : Container) : Args := ["stop", c.name]

/-- `impl Drop for Container` (`container.rs`): issue one `stop` for the
full name and discard the result (`let _ = lxc(...)`); the return type
carries no error, so a failure cannot reach the caller. -/
def Container.dropT (w : World) (c : Container) : Unit × List Args :=
  let _r := lxc w (stopArgs c)
  ((), [stopArgs c])

/-- An LXD snapshot handle (`snapshot.rs`): holds a borrow of its parent
container and its own full (qualified) snapshot name. -/
structure Snapshot where
  _container : Container
  name : String
deriving DecidableEq

/-- `Snapshot::new` (`snapshot.rs`): issue `snapshot <container> <name>`;
on success the handle's name is `<container-full-name>/<name>`, computed
once here.  Returns the result and the trace of issued commands. -/
def Snapshot.newT (w : World) (container : Container) (name : String) :
    Except IoError Snapshot × List Args :=
  let args : Args := ["snapshot", container.name, name]
  match lxc w args with
  | .error e => (.error e, [args])
  | .ok _ =>
    let full_name := container.name ++ "/" ++ name
    (.ok ⟨container, full_name⟩, [args])

/-- The argument vector of `Snapshot::publish` (`alias` is a Lean
keyword, hence `aliasName`). -/
def Snapshot.publishArgs (s : Snapshot) (aliasName : String) : Args :=
  ["publish", s.name, "--alias", aliasName]

/-- `Snapshot::publish`: one `lxc` invocation with `publishArgs`. -/
def Snapshot.publishT (w : World) (s : Snapshot) (aliasName : String) :
    Except IoError Unit × List Args :=
  (lxc w (Snapshot.publishArgs s aliasName), [Snapshot.publishArgs s aliasName])

/-- The argument vector issued by `Snapshot`'s `Drop` impl. -/
def deleteArgs (s : Snapshot) : Args := ["delete", s.name]

/-- `impl Drop for Snapshot` (`snapshot.rs`): issue one `delete` for the
snapshot's full name and discard the result. -/
def Snapshot.dropT (w : World) (s : Snapshot) : Unit × List Args :=
  let _r := lxc w (deleteArgs s)
  ((), [deleteArgs s])

/-- Scope-exit teardown of one container and its live snapshot handles,
modelling Rust's drop discipline: `Snapshot<'a>` holds `&'a Container`,
so the borrow checker admits the container's drop only once every
snapshot handle is dead, while the snapshot handles themselves may be
dropped in any order.  A state is (container still alive, live snapshot
handles, trace of commands issued so far); each step runs one `Drop`
impl and appends the command it issues. -/
inductive TeardownStep (c : Container) :
    Bool × List Snapshot × List Args → Bool × List Snapshot × List Args → Prop
  | dropSnap (alive : Bool) (snaps : List Snapshot) (s : Snapshot) (tr : List Args)
      (h : s ∈ snaps) :
      TeardownStep c (alive, snaps, tr) (alive, snaps.erase s, tr ++ [deleteArgs s])
  | dropContainer (tr : List Args) :
      TeardownStep c (true, [], tr) (false, [], tr ++ [stopArgs c])

/-! ### JSON codecs for the structured views

`Info` and `Image` derive `Serialize`/`Deserialize`; the derived codecs
are modelled here over the `Json` shape: a struct is an object keyed by
its field names, maps are objects, vectors are arrays, `Option` is
`null`-or-value, and the derived deserializer looks each field up by
key (ignoring field order, as `serde` does). -/

/-- An owned `BTreeMap<String, String>` value, as a key-value list. -/
abbrev StrMap := List (String × String)

/-- An owned `BTreeMap<String, BTreeMap<String, String>>` value. -/
abbrev StrMap2 := List (String × StrMap)

/-- An owned `BTreeMap<String, usize>` value. -/
abbrev NatMap := List (String × Nat)

/-- Field lookup of the derived deserializer: a missing field is a
deserialization error. -/
def getField (fields : List (String × Json)) (key : String) : Except String Json :=
  match fields.lookup key with
  | some v => .ok v
  | none => .error ("missing field " ++ key)

/-- Decode a JSON string. -/
def decodeString : Json → Except String String
  | .str s => .ok s
  | _ => .error "expected string"

/-- Decode a JSON boolean. -/
def decodeBool : Json → Except String Bool
  | .bool b => .ok b
  | _ => .error "expected boolean"

/-- Decode a JSON number into an unsigned integer. -/
def decodeNat : Json → Except String Nat
  | .num n => .ok n
  | _ => .error "expected number"

/-- Decode the entries of an object into a string-to-string map. -/
def decodeStrEntries : List (String × Json) → Except String StrMap
  | [] => .ok []
  | kv :: rest => do
    let v ← decodeString kv.2
    let tail ← decodeStrEntries rest
    .ok ((kv.1, v) :: tail)

/-- Decode a string-to-string map. -/
def decodeStrMap : Json → Except String StrMap
  | .obj fields => decodeStrEntries fields
  | _ => .error "expected object"

/-- Decode the entries of an object into a string-to-number map. -/
def decodeNatEntries : List (String × Json) → Except String NatMap
  | [] => .ok []
  | kv :: rest => do
    let v ← decodeNat kv.2
    let tail ← decodeNatEntries rest
    .ok ((kv.1, v) :: tail)

/-- Decode a string-to-number map. -/
def decodeNatMap : Json → Except String NatMap
  | .obj fields => decodeNatEntries fields
  | _ => .error "expected object"

/-- Decode the entries of an object into a map of maps. -/
def decodeStrMap2Entries : List (String × Json) → Except String StrMap2
  | [] => .ok []
  | kv :: rest => do
    let v ← decodeStrMap kv.2
    let tail ← decodeStrMap2Entries rest
    .ok ((kv.1, v) :: tail)

/-- Decode a string-to-(string-to-string) map. -/
def decodeStrMap2 : Json → Except String StrMap2
  | .obj fields => decodeStrMap2Entries fields
  | _ => .error "expected object"

/-- Decode the elements of an array into a list of strings. -/
def decodeStringElems : List Json → Except String (List String)
  | [] => .ok []
  | j :: rest => do
    let s ← decodeString j
    let tail ← decodeStringElems rest
    .ok (s :: tail)

/-- Decode an array of strings (a `Vec<String>`). -/
def decodeStringList : Json → Except String (List String)
  | .arr elems => decodeStringElems elems
  | _ => .error "expected array"

/-- Decode the elements of an array into string-to-string maps. -/
def decodeStrMapElems : List Json → Except String (List StrMap)
  | [] => .ok []
  | j :: rest => do
    let m ← decodeStrMap j
    let tail ← decodeStrMapElems rest
    .ok (m :: tail)

/-- Decode an array of string-to-string maps
(a `Vec<BTreeMap<String, String>>`). -/
def decodeStrMapList : Json → Except String (List StrMap)
  | .arr elems => decodeStrMapElems elems
  | _ => .error "expected array"

/-- Encode a string-to-string map as a JSON object. -/
def encodeStrMap (m : StrMap) : Json :=
  .obj (m.map fun kv => (kv.1, Json.str kv.2))

/-- Encode a string-to-number map as a JSON object. -/
def encodeNatMap (m : NatMap) : Json :=
  .obj (m.map fun kv => (kv.1, Json.num kv.2))

/-- Encode a map of maps as a JSON object of objects. -/
def encodeStrMap2 (m : StrMap2) : Json :=
  .obj (m.map fun kv => (kv.1, encodeStrMap kv.2))

/-- Encode an `Option` as `serde` does: `None` is `null`, `Some` is the
value itself. -/
def encodeOpt (f : α → Json) : Option α → Json
  | none => .null
  | some x => f x

/-- Decode an `Option` as `serde` does: `null` is `None`, anything else
must decode as the inner type. -/
def decodeOpt (f : Json → Except String α) : Json → Except String (Option α)
  | .null => .ok none
  | j => (f j).map some

/-- The `Snapshot` record nested inside `Info` (`info.rs`): a snapshot
description as listed by the external tool. -/
structure Info.Snapshot where
  architecture : String
  config : StrMap
  created_at : String
  ephemeral : Bool
  expanded_config : StrMap
  expanded_devices : StrMap2
  last_used_at : String
  name : String
  profiles : List String
  stateful : Bool
deriving DecidableEq

/-- The `State` record nested inside `Info` (`info.rs`): runtime counters
of a running container. -/
structure Info.State where
  status : String
  status_code : Nat
  memory : NatMap
  pid : Nat
  processes : Nat
  cpu : NatMap
deriving DecidableEq

/-- LXD container information (`info.rs`). -/
structure Info where
  architecture : String
  config : StrMap
  devices : StrMap2
  ephemeral : Bool
  profiles : List String
  created_at : String
  expanded_config : StrMap
  expanded_devices : StrMap2
  name : String
  stateful : Bool
  status : String
  status_code : Nat
  last_used_at : String
  state : Option Info.State
  snapshots : Option (List Info.Snapshot)
deriving DecidableEq

/-- LXD image information (`image.rs`).  `update_source` carries
`#[serde(default)]`: an absent field decodes to the empty map. -/
structure Image where
  auto_update : Bool
  properties : StrMap
  public : Bool
  aliases : List StrMap
  architecture : String
  cached : Bool
  filename : String
  fingerprint : String
  size : Nat
  update_source : StrMap
  created_at : String
  expires_at : String
  last_used_at : String
  uploaded_at : String
deriving DecidableEq

/-- Serialization of `Info.Snapshot`: an object keyed by field names, in
declaration order. -/
def Info.Snapshot.toJson (s : Info.Snapshot) : Json :=
  .obj [("architecture", .str s.architecture),
        ("config", encodeStrMap s.config),
        ("created_at", .str s.created_at),
        ("ephemeral", .bool s.ephemeral),
        ("expanded_config", encodeStrMap s.expanded_config),
        ("expanded_devices", encodeStrMap2 s.expanded_devices),
        ("last_used_at", .str s.last_used_at),
        ("name", .str s.name),
        ("profiles", .arr (s.profiles.map Json.str)),
        ("stateful", .bool s.stateful)]

/-- Deserialization of `Info.Snapshot`. -/
def Info.Snapshot.fromJson : Json → Except String Info.Snapshot
  | .obj fields => do
    let architecture ← getField fields "architecture" >>= decodeString
    let config ← getField fields "config" >>= decodeStrMap
    let created_at ← getField fields "created_at" >>= decodeString
    let ephemeral ← getField fields "ephemeral" >>= decodeBool
    let expanded_config ← getField fields "expanded_config" >>= decodeStrMap
    let expanded_devices ← getField fields "expanded_devices" >>= decodeStrMap2
    let last_used_at ← getField fields "last_used_at" >>= decodeString
    let name ← getField fields "name" >>= decodeString
    let profiles ← getField fields "profiles" >>= decodeStringList
    let stateful ← getField fields "stateful" >>= decodeBool
    .ok ⟨architecture, config, created_at, ephemeral, expanded_config,
         expanded_devices, last_used_at, name, profiles, stateful⟩
  | _ => .error "expected object"

/-- Serialization of `Info.State`. -/
def Info.State.toJson (st : Info.State) : Json :=
  .obj [("status", .str st.status),
        ("status_code", .num st.status_code),
        ("memory", encodeNatMap st.memory),
        ("pid", .num st.pid),
        ("processes", .num st.processes),
        ("cpu", encodeNatMap st.cpu)]

/-- Deserialization of `Info.State`. -/
def Info.State.fromJson : Json → Except String Info.State
  | .obj fields => do
    let status ← getField fields "status" >>= decodeString
    let status_code ← getField fields "status_code" >>= decodeNat
    let memory ← getField fields "memory" >>= decodeNatMap
    let pid ← getField fields "pid" >>= decodeNat
    let processes ← getField fields "processes" >>= decodeNat
    let cpu ← getField fields "cpu" >>= decodeNatMap
    .ok ⟨status, status_code, memory, pid, processes, cpu⟩
  | _ => .error "expected object"

/-- Decode the elements of an array into `Info.Snapshot` records. -/
def decodeSnapshotElems : List Json → Except String (List Info.Snapshot)
  | [] => .ok []
  | j :: rest => do
    let s ← Info.Snapshot.fromJson j
    let tail ← decodeSnapshotElems rest
    .ok (s :: tail)

/-- Decode an array of `Info.Snapshot` records. -/
def decodeSnapshotList : Json → Except String (List Info.Snapshot)
  | .arr elems => decodeSnapshotElems elems
  | _ => .error "expected array"

/-- Serialization of `Info`. -/
def Info.toJson (i : Info) : Json :=
  .obj [("architecture", .str i.architecture),
        ("config", encodeStrMap i.config),
        ("devices", encodeStrMap2 i.devices),
        ("ephemeral", .bool i.ephemeral),
        ("profiles", .arr (i.profiles.map Json.str)),
        ("created_at", .str i.created_at),
        ("expanded_config", encodeStrMap i.expanded_config),
        ("expanded_devices", encodeStrMap2 i.expanded_devices),
        ("name", .str i.name),
        ("stateful", .bool i.stateful),
        ("status", .str i.status),
        ("status_code", .num i.status_code),
        ("last_used_at", .str i.last_used_at),
        ("state", encodeOpt Info.State.toJson i.state),
        ("snapshots", encodeOpt (fun l => Json.arr (l.map Info.Snapshot.toJson)) i.snapshots)]

/-- Deserialization of `Info`. -/
def Info.fromJson : Json → Except String Info
  | .obj fields => do
    let architecture ← getField fields "architecture" >>= decodeString
    let config ← getField fields "config" >>= decodeStrMap
    let devices ← getField fields "devices" >>= decodeStrMap2
    let ephemeral ← getField fields "ephemeral" >>= decodeBool
    let profiles ← getField fields "profiles" >>= decodeStringList
    let created_at ← getField fields "created_at" >>= decodeString
    let expanded_config ← getField fields "expanded_config" >>= decodeStrMap
    let expanded_devices ← getField fields "expanded_devices" >>= decodeStrMap2
    let name ← getField fields "name" >>= decodeString
    let stateful ← getField fields "stateful" >>= decodeBool
    let status ← getField fields "status" >>= decodeString
    let status_code ← getField fields "status_code" >>= decodeNat
    let last_used_at ← getField fields "last_used_at" >>= decodeString
    let state ← getField fields "state" >>= decodeOpt Info.State.fromJson
    let snapshots ← getField fields "snapshots" >>= decodeOpt decodeSnapshotList
    .ok ⟨architecture, config, devices, ephemeral, profiles, created_at,
         expanded_config, expanded_devices, name, stateful, status,
         status_code, last_used_at, state, snapshots⟩
  | _ => .error "expected object"

/-- Serialization of `Image`: `update_source` is always emitted. -/
def Image.toJson (im : Image) : Json :=
  .obj [("auto_update", .bool im.auto_update),
        ("properties", encodeStrMap im.properties),
        ("public", .bool im.public),
        ("aliases", .arr (im.aliases.map encodeStrMap)),
        ("architecture", .str im.architecture),
        ("cached", .bool im.cached),
        ("filename", .str im.filename),
        ("fingerprint", .str im.fingerprint),
        ("size", .num im.size),
        ("update_source", encodeStrMap im.update_source),
        ("created_at", .str im.created_at),
        ("expires_at", .str im.expires_at),
        ("last_used_at", .str im.last_used_at),
        ("uploaded_at", .str im.uploaded_at)]

/-- Deserialization of `Image`: an absent `update_source` field falls
back to the empty map (`#[serde(default = "BTreeMap::new")]`). -/
def Image.fromJson : Json → Except String Image
  | .obj fields => do
    let auto_update ← getField fields "auto_update" >>= decodeBool
    let properties ← getField fields "properties" >>= decodeStrMap
    let publicFlag ← getField fields "public" >>= decodeBool
    let aliases ← getField fields "aliases" >>= decodeStrMapList
    let architecture ← getField fields "architecture" >>= decodeString
    let cached ← getField fields "cached" >>= decodeBool
    let filename ← getField fields "filename" >>= decodeString
    let fingerprint ← getField fields "fingerprint" >>= decodeString
    let size ← getField fields "size" >>= decodeNat
    let update_source ←
      match fields.lookup "update_source" with
      | some v => decodeStrMap v
      | none => .ok []
    let created_at ← getField fields "created_at" >>= decodeString
    let expires_at ← getField fields "expires_at" >>= decodeString
    let last_used_at ← getField fields "last_used_at" >>= decodeString
    let uploaded_at ← getField fields "uploaded_at" >>= decodeString
    .ok ⟨auto_update, properties, publicFlag, aliases, architecture, cached,
         filename, fingerprint, size, update_source, created_at, expires_at,
         last_used_at, uploaded_at⟩
  | _ => .error "expected object"

/-- Decode the elements of an array into `Info` records. -/
def decodeInfoElems : List Json → Except String (List Info)
  | [] => .ok []
  | j :: rest => do
    let i ← Info.fromJson j
    let tail ← decodeInfoElems rest
    .ok (i :: tail)

/-- `serde_json::from_slice::<Vec<Info>>` over the already-text-parsed
bytes: a text parse failure is passed through, then the value must be an
array of `Info` records. -/
def Info.fromSlice (raw : Except String Json) : Except String (List Info) :=
  match raw with
  | .error e => .error e
  | .ok (.arr elems) => decodeInfoElems elems
  | .ok _ => .error "expected array"

/-- Decode the elements of an array into `Image` records. -/
def decodeImageElems : List Json → Except String (List Image)
  | [] => .ok []
  | j :: rest => do
    let im ← Image.fromJson j
    let tail ← decodeImageElems rest
    .ok (im :: tail)

/-- `serde_json::from_slice::<Vec<Image>>` over the already-text-parsed
bytes. -/
def Image.fromSlice (raw : Except String Json) : Except String (List Image) :=
  match raw with
  | .error e => .error e
  | .ok (.arr elems) => decodeImageElems elems
  | .ok _ => .error "expected array"

/-! ### Structured fetch operations (`info.rs`, `image.rs`) -/

/-- The argument vector of `Info::all`. -/
def Info.allArgs : Location → Args
  | .Local => ["list", "--format", "json"]
  | .Remote remote => ["list", remote ++ ":", "--format", "json"]

/-- `Info::all`: list every container at the location and parse the
captured output as a JSON array of `Info` records. -/
def Info.allT (w : World) (location : Location) :
    Except IoError (List Info) × List Args :=
  let args := Info.allArgs location
  (match lxc_output w args with
   | .error e => .error e
   | .ok raw =>
     match Info.fromSlice raw with
     | .ok list => .ok list
     | .error err => .error ⟨.other, "LXD info: failed to parse json: " ++ err⟩,
   [args])

/-- The argument vector of `Info::new`: the name filter is anchored as
`<name>$`. -/
def Info.newArgs : Location → String → Args
  | .Local, name => ["list", name ++ "$", "--format", "json"]
  | .Remote remote, name => ["list", remote ++ ":", name ++ "$", "--format", "json"]

/-- `Info::new`: list with the single-name filter, parse a JSON array of
`Info` records, and require exactly one record; zero or several records
surface an `ErrorKind::NotFound` error. -/
def Info.newT (w : World) (location : Location) (name : String) :
    Except IoError Info × List Args :=
  let args := Info.newArgs location name
  (match lxc_output w args with
   | .error e => .error e
   | .ok raw =>
     match Info.fromSlice raw with
     | .ok [record] => .ok record
     | .ok _ => .error ⟨.notFound, "LXD info: " ++ name ++ " not found"⟩
     | .error err => .error ⟨.other, "LXD info: failed to parse json: " ++ err⟩,
   [args])

/-- The argument vector of `Image::all`. -/
def Image.allArgs : Location → Args
  | .Local => ["image", "list", "--format", "json"]
  | .Remote remote => ["image", "list", remote ++ ":", "--format", "json"]

/-- `Image::all`: list every image at the location and parse the
captured output as a JSON array of `Image` records. -/
def Image.allT (w : World) (location : Location) :
    Except IoError (List Image) × List Args :=
  let args := Image.allArgs location
  (match lxc_output w args with
   | .error e => .error e
   | .ok raw =>
     match Image.fromSlice raw with
     | .ok list => .ok list
     | .error err => .error ⟨.other, "LXD image: failed to parse json: " ++ err⟩,
   [args])

/-- The argument vector of `Image::new`: the name filter is passed bare,
with no anchor. -/
def Image.newArgs : Location → String → Args
  | .Local, name => ["image", "list", name, "--format", "json"]
  | .Remote remote, name => ["image", "list", remote ++ ":", name, "--format", "json"]

/-- `Image::new`: list with the single-name filter, parse a JSON array
of `Image` records, and require exactly one record; zero or several
records surface an `ErrorKind::NotFound` error. -/
def Image.newT (w : World) (location : Location) (name : String) :
    Except IoError Image × List Args :=
  let args := Image.newArgs location name
  (match lxc_output w args with
   | .error e => .error e
   | .ok raw =>
     match Image.fromSlice raw with
     | .ok [record] => .ok record
     | .ok _ => .error ⟨.notFound, "LXD image: " ++ name ++ " not found"⟩
     | .error err => .error ⟨.other, "LXD image: failed to parse json: " ++ err⟩,
   [args])

/-! ### Concrete worlds and records for witnesses -/

/-- A successful exit status as rendered by `Display`. -/
def okStatus : ExitStatus := ⟨true, "exit status: 0"⟩

/-- A failing exit status as rendered by `Display`. -/
def errStatus : ExitStatus := ⟨false, "exit status: 1"⟩

/-- A world in which every invocation succeeds and produces the given
output. -/
def okWorld (out : Json) : World := ⟨fun _ => okStatus, fun _ => .ok out⟩

/-- A world in which every invocation fails. -/
def downWorld : World := ⟨fun _ => errStatus, fun _ => .error "empty input"⟩

/-- A small concrete `Info` record. -/
def sampleInfo : Info :=
  ⟨"x86_64", [("a", "b")], [], true, ["default"], "2024-01-01", [], [],
   "t1", false, "Running", 103, "2024-01-02", none, none⟩

/-- A small concrete `Image` record. -/
def sampleImage : Image :=
  ⟨false, [], true, [], "x86_64", false, "img.tar.xz", "abcdef", 7, [],
   "2024-01-01", "2024-02-01", "2024-03-01", "2024-04-01"⟩

/-! ### Round-trip lemmas for the JSON codecs -/

theorem decodeStrEntries_enc (m : StrMap) :
    decodeStrEntries (m.map fun kv => (kv.1, Json.str kv.2)) = .ok m := by
  induction m with
  | nil => rfl
  | cons kv rest ih => simp [decodeStrEntries, decodeString, bind, Except.bind, ih]

theorem decodeStrMap_enc (m : StrMap) : decodeStrMap (encodeStrMap m) = .ok m := by
  simp [decodeStrMap, encodeStrMap, decodeStrEntries_enc]

theorem decodeNatEntries_enc (m : NatMap) :
    decodeNatEntries (m.map fun kv => (kv.1, Json.num kv.2)) = .ok m := by
  induction m with
  | nil => rfl
  | cons kv rest ih => simp [decodeNatEntries, decodeNat, bind, Except.bind, ih]

theorem decodeNatMap_enc (m : NatMap) : decodeNatMap (encodeNatMap m) = .ok m := by
  simp [decodeNatMap, encodeNatMap, decodeNatEntries_enc]

theorem decodeStrMap2Entries_enc (m : StrMap2) :
    decodeStrMap2Entries (m.map fun kv => (kv.1, encodeStrMap kv.2)) = .ok m := by
  induction m with
  | nil => rfl
  | cons kv rest ih =>
    simp [decodeStrMap2Entries, decodeStrMap_enc, bind, Except.bind, ih]

theorem decodeStrMap2_enc (m : StrMap2) : decodeStrMap2 (encodeStrMap2 m) = .ok m := by
  simp [decodeStrMap2, encodeStrMap2, decodeStrMap2Entries_enc]

theorem decodeStringElems_enc (l : List String) :
    decodeStringElems (l.map Json.str) = .ok l := by
  induction l with
  | nil => rfl
  | cons s rest ih => simp [decodeStringElems, decodeString, bind, Except.bind, ih]

theorem decodeStringList_enc (l : List String) :
    decodeStringList (.arr (l.map Json.str)) = .ok l := by
  simp [decodeStringList, decodeStringElems_enc]

theorem decodeStrMapElems_enc (l : List StrMap) :
    decodeStrMapElems (l.map encodeStrMap) = .ok l := by
  induction l with
  | nil => rfl
  | cons m rest ih => simp [decodeStrMapElems, decodeStrMap_enc, bind, Except.bind, ih]

theorem decodeStrMapList_enc (l : List StrMap) :
    decodeStrMapList (.arr (l.map encodeStrMap)) = .ok l := by
  simp [decodeStrMapList, decodeStrMapElems_enc]

theorem infoSnapshot_roundtrip (s : Info.Snapshot) :
    Info.Snapshot.fromJson (Info.Snapshot.toJson s) = .ok s := by
  cases s
  simp [Info.Snapshot.fromJson, Info.Snapshot.toJson, getField, List.lookup,
    decodeString, decodeBool, decodeStrMap_enc, decodeStrMap2_enc,
    decodeStringList_enc, bind, Except.bind]

theorem infoState_roundtrip (st : Info.State) :
    Info.State.fromJson (Info.State.toJson st) = .ok st := by
  cases st
  simp [Info.State.fromJson, Info.State.toJson, getField, List.lookup,
    decodeString, decodeNat, decodeNatMap_enc, bind, Except.bind]

theorem decodeOptState_enc (o : Option Info.State) :
    decodeOpt Info.State.fromJson (encodeOpt Info.State.toJson o) = .ok o := by
  cases o with
  | none => rfl
  | some st =>
    show Except.map some (Info.State.fromJson (Info.State.toJson st)) = .ok (some st)
    rw [infoState_roundtrip]
    rfl

theorem decodeSnapshotElems_enc (l : List Info.Snapshot) :
    decodeSnapshotElems (l.map Info.Snapshot.toJson) = .ok l := by
  induction l with
  | nil => rfl
  | cons s rest ih =>
    simp [decodeSnapshotElems, infoSnapshot_roundtrip, bind, Except.bind, ih]

theorem decodeOptSnapshotList_enc (o : Option (List Info.Snapshot)) :
    decodeOpt decodeSnapshotList
      (encodeOpt (fun l => Json.arr (l.map Info.Snapshot.toJson)) o) = .ok o := by
  cases o with
  | none => rfl
  | some l =>
    show Except.map some (decodeSnapshotList (.arr (l.map Info.Snapshot.toJson)))
      = .ok (some l)
    rw [decodeSnapshotList, decodeSnapshotElems_enc]
    rfl

theorem info_roundtrip (i : Info) : Info.fromJson (Info.toJson i) = .ok i := by
  cases i
  simp [Info.fromJson, Info.toJson, getField, List.lookup, decodeString,
    decodeBool, decodeNat, decodeStrMap_enc, decodeStrMap2_enc,
    decodeStringList_enc, decodeOptState_enc, decodeOptSnapshotList_enc,
    bind, Except.bind]

theorem image_roundtrip (im : Image) : Image.fromJson (Image.toJson im) = .ok im := by
  cases im
  simp [Image.fromJson, Image.toJson, getField, List.lookup, decodeString,
    decodeBool, decodeNat, decodeStrMap_enc, decodeStrMapList_enc,
    bind, Except.bind]

theorem decodeInfoElems_enc (l : List Info) :
    decodeInfoElems (l.map Info.toJson) = .ok l := by
  induction l with
  | nil => rfl
  | cons i rest ih => simp [decodeInfoElems, info_roundtrip, bind, Except.bind, ih]

theorem decodeImageElems_enc (l : List Image) :
    decodeImageElems (l.map Image.toJson) = .ok l := by
  induction l with
  | nil => rfl
  | cons im rest ih => simp [decodeImageElems, image_roundtrip, bind, Except.bind, ih]

/-! ### Characterization of `Container::new` -/

theorem containerNew_eq (w : World) (location : Location) (name base : String) :
    Container.newT w location name base =
      if (w.status (launchArgs base (qualifyName location name))).success then
        if (w.status (dhclientArgs (qualifyName location name))).success then
          (.ok ⟨qualifyName location name⟩,
           [launchArgs base (qualifyName location name),
            dhclientArgs (qualifyName location name)])
        else
          (.error ⟨.other, lxcFailMsg (dhclientArgs (qualifyName location name))
              (w.status (dhclientArgs (qualifyName location name)))⟩,
           [launchArgs base (qualifyName location name),
            dhclientArgs (qualifyName location name)])
      else
        (.error ⟨.other, lxcFailMsg (launchArgs base (qualifyName location name))
            (w.status (launchArgs base (qualifyName location name)))⟩,
         [launchArgs base (qualifyName location name)]) := by
  cases location <;>
    (simp only [Container.newT, lxc, qualifyName, launchArgs, dhclientArgs]
     split_ifs <;> rfl)

/-! ### The claims -/

/-- C1: every container successfully constructed by `Container::new`
issues, when dropped, exactly the single command `stop <full-name>` for
its qualified name; the drop returns unit in every world, so a failure
of the stop is discarded and never surfaced. -/
theorem container_teardown_single_stop (w w2 : World) (location : Location)
    (name base : String) (c : Container) (tr : List Args)
    (h : Container.newT w location name base = (.ok c, tr)) :
    Container.dropT w2 c = ((), [["stop", c.name]]) ∧
      c.name = qualifyName location name := by
  refine ⟨rfl, ?_⟩
  have hc := containerNew_eq w location name base
  rw [h] at hc
  split_ifs at hc with h1 h2
  · simp only [Prod.mk.injEq, Except.ok.injEq] at hc
    rw [hc.1]
  · simp at hc
  · simp at hc

/-- C1 witness: a concrete construction in an all-success world, dropped
in an all-failure world, still issues exactly one `stop t1` and returns
unit. -/
theorem container_teardown_single_stop_witness :
    Container.dropT downWorld ⟨"t1"⟩ = ((), [["stop", "t1"]]) ∧
      ("t1" : String) = qualifyName Location.Local "t1" :=
  container_teardown_single_stop (okWorld Json.null) downWorld Location.Local
    "t1" "base-x" ⟨"t1"⟩
    [launchArgs "base-x" "t1", dhclientArgs "t1"] rfl

/-- C3: `Container::new` issues `launch` then the `dhclient` probe, in
that order; it returns a handle bearing the qualified name exactly when
both succeed, and the failure of either call is returned as that call's
command-failure error with no handle. -/
theorem container_new_two_calls (w : World) (location : Location) (name base : String) :
    (∀ c tr, Container.newT w location name base = (.ok c, tr) →
      c = ⟨qualifyName location name⟩ ∧
      tr = [launchArgs base (qualifyName location name),
            dhclientArgs (qualifyName location name)] ∧
      (w.status (launchArgs base (qualifyName location name))).success = true ∧
      (w.status (dhclientArgs (qualifyName location name))).success = true) ∧
    ((w.status (launchArgs base (qualifyName location name))).success = false →
      Container.newT w location name base =
        (.error ⟨.other, lxcFailMsg (launchArgs base (qualifyName location name))
            (w.status (launchArgs base (qualifyName location name)))⟩,
         [launchArgs base (qualifyName location name)])) ∧
    ((w.status (launchArgs base (qualifyName location name))).success = true →
      (w.status (dhclientArgs (qualifyName location name))).success = false →
      Container.newT w location name base =
        (.error ⟨.other, lxcFailMsg (dhclientArgs (qualifyName location name))
            (w.status (dhclientArgs (qualifyName location name)))⟩,
         [launchArgs base (qualifyName location name),
          dhclientArgs (qualifyName location name)])) := by
  have hc := containerNew_eq w location name base
  refine ⟨?_, ?_, ?_⟩
  · intro c tr h
    rw [h] at hc
    split_ifs at hc with h1 h2
    · simp only [Prod.mk.injEq, Except.ok.injEq] at hc
      exact ⟨hc.1, hc.2, h1, h2⟩
    · simp at hc
    · simp at hc
  · intro h1
    rw [hc, if_neg (by simp [h1])]
  · intro h1 h2
    rw [hc, if_pos h1, if_neg (by simp [h2])]

/-- C3 witness: in an all-success world the construction returns the
handle `t1` with the two commands in order; in an all-failure world it
fails with the launch command's error after a single command. -/
theorem container_new_two_calls_witness :
    ((⟨"t1"⟩ : Container) = ⟨qualifyName Location.Local "t1"⟩ ∧
      [launchArgs "base-x" "t1", dhclientArgs "t1"] =
        [launchArgs "base-x" (qualifyName Location.Local "t1"),
         dhclientArgs (qualifyName Location.Local "t1")] ∧
      ((okWorld Json.null).status
        (launchArgs "base-x" (qualifyName Location.Local "t1"))).success = true ∧
      ((okWorld Json.null).status
        (dhclientArgs (qualifyName Location.Local "t1"))).success = true) ∧
    Container.newT downWorld Location.Local "t1" "base-x" =
      (.error ⟨.other, lxcFailMsg (launchArgs "base-x" (qualifyName Location.Local "t1"))
          (downWorld.status (launchArgs "base-x" (qualifyName Location.Local "t1")))⟩,
       [launchArgs "base-x" (qualifyName Location.Local "t1")]) :=
  ⟨(container_new_two_calls (okWorld Json.null) Location.Local "t1" "base-x").1
      ⟨"t1"⟩ [launchArgs "base-x" "t1", dhclientArgs "t1"] rfl,
   (container_new_two_calls downWorld Location.Local "t1" "base-x").2.1 rfl⟩

/-- C4: qualification yields `host:name` for a remote location and the
bare name for the local one; `Container::new` bakes exactly this rule
into the handle's name, and the listing commands of `Info`/`Image`
scope a remote location with the same rule applied to the empty name
(the `host:` prefix). -/
theorem qualification_rule (host n : String) :
    qualifyName (Location.Remote host) n = host ++ ":" ++ n ∧
    qualifyName Location.Local n = n ∧
    (∀ w base c tr location, Container.newT w location n base = (.ok c, tr) →
      c.name = qualifyName location n) ∧
    Info.newArgs (Location.Remote host) n
      = ["list", qualifyName (Location.Remote host) "", n ++ "$", "--format", "json"] ∧
    Info.allArgs (Location.Remote host)
      = ["list", qualifyName (Location.Remote host) "", "--format", "json"] ∧
    Image.newArgs (Location.Remote host) n
      = ["image", "list", qualifyName (Location.Remote host) "", n, "--format", "json"] ∧
    Image.allArgs (Location.Remote host)
      = ["image", "list", qualifyName (Location.Remote host) "", "--format", "json"] := by
  refine ⟨rfl, rfl, ?_, ?_, ?_, ?_, ?_⟩
  · intro w base c tr location h
    exact (container_teardown_single_stop w w location n base c tr h).2
  all_goals simp [qualifyName, Info.newArgs, Info.allArgs, Image.newArgs, Image.allArgs]

/-- C4 witness: the rule at concrete values, and a concrete successful
construction carrying the qualified name. -/
theorem qualification_rule_witness :
    qualifyName (Location.Remote "myhost") "web" = "myhost" ++ ":" ++ "web" ∧
    (Container.mk "myhost:web").name = qualifyName (Location.Remote "myhost") "web" :=
  ⟨(qualification_rule "myhost" "web").1,
   (qualification_rule "myhost" "web").2.2.1 (okWorld Json.null) "base-x"
     ⟨"myhost:web"⟩ [launchArgs "base-x" "myhost:web", dhclientArgs "myhost:web"]
     (Location.Remote "myhost") rfl⟩

/-- C5: a snapshot successfully created by `Snapshot::new` carries the
name `<container-full-name>/<snapshot-name>`, computed at creation and
stored; its drop issues exactly one `delete` for that stored name in
every world (so a failure is discarded), and `publish` reuses the same
stored name. -/
theorem snapshot_name_fixed (w : World) (c : Container) (n : String)
    (s : Snapshot) (tr : List Args)
    (h : Snapshot.newT w c n = (.ok s, tr)) :
    s.name = c.name ++ "/" ++ n ∧
    s._container = c ∧
    (∀ w2, Snapshot.dropT w2 s = ((), [["delete", s.name]])) ∧
    (∀ a, Snapshot.publishArgs s a = ["publish", s.name, "--alias", a]) := by
  have hs : s = ⟨c, c.name ++ "/" ++ n⟩ := by
    simp only [Snapshot.newT] at h
    split at h
    · simp at h
    · simp only [Prod.mk.injEq, Except.ok.injEq] at h
      exact h.1.symm
  subst hs
  exact ⟨rfl, rfl, fun _ => rfl, fun _ => rfl⟩

/-- C5 witness: a concrete snapshot of container `t1` named `snap1`. -/
theorem snapshot_name_fixed_witness :
    (Snapshot.mk ⟨"t1"⟩ "t1/snap1").name = "t1" ++ "/" ++ "snap1" ∧
    (Snapshot.mk ⟨"t1"⟩ "t1/snap1")._container = Container.mk "t1" ∧
    (∀ w2, Snapshot.dropT w2 ⟨⟨"t1"⟩, "t1/snap1"⟩ =
      ((), [["delete", (Snapshot.mk ⟨"t1"⟩ "t1/snap1").name]])) ∧
    (∀ a, Snapshot.publishArgs ⟨⟨"t1"⟩, "t1/snap1"⟩ a =
      ["publish", (Snapshot.mk ⟨"t1"⟩ "t1/snap1").name, "--alias", a]) :=
  snapshot_name_fixed (okWorld Json.null) ⟨"t1"⟩ "snap1" ⟨⟨"t1"⟩, "t1/snap1"⟩
    [["snapshot", "t1", "snap1"]] rfl

/-- Trace shape of any teardown run: from a state with pending snapshot
handles, a completed teardown appends some permutation of their delete
commands and, if the container was still alive, its stop command last. -/
theorem teardown_trace_general (c : Container) (tr : List Args)
    (st : Bool × List Snapshot × List Args)
    (h : Relation.ReflTransGen (TeardownStep c) st (false, [], tr)) :
    ∃ dels, List.Perm dels (st.2.1.map deleteArgs) ∧
      tr = st.2.2 ++ (dels ++ (if st.1 then [stopArgs c] else [])) := by
  induction h using Relation.ReflTransGen.head_induction_on with
  | refl => exact ⟨[], by simp⟩
  | head step rest ih =>
    obtain ⟨dels, hperm, htr⟩ := ih
    cases step with
    | dropSnap alive snaps s tr0 hmem =>
      dsimp only at hperm htr ⊢
      refine ⟨deleteArgs s :: dels, ?_, ?_⟩
      · have h1 : List.Perm (deleteArgs s :: dels)
            ((s :: snaps.erase s).map deleteArgs) := hperm.cons _
        exact h1.trans ((List.perm_cons_erase hmem).map deleteArgs).symm
      · simpa [List.append_assoc] using htr
    | dropContainer tr0 =>
      dsimp only at hperm htr ⊢
      have hnil : dels = [] := List.Perm.eq_nil (by simpa using hperm)
      subst hnil
      exact ⟨[], by simp, by simpa using htr⟩

/-- Invariant of teardown: once the container has been dropped, no
snapshot handle is live any more (the drop of the container required the
set of live handles to be empty, and handles are never created during
teardown). -/
theorem teardown_container_last (c : Container) (start target : Bool × List Snapshot × List Args)
    (h : Relation.ReflTransGen (TeardownStep c) start target)
    (hstart : start.1 = false → start.2.1 = []) :
    target.1 = false → target.2.1 = [] := by
  induction h with
  | refl => exact hstart
  | tail _ step ih =>
    cases step with
    | dropSnap alive snaps s tr0 hmem =>
      intro halive
      have hsn : snaps = [] := ih halive
      rw [hsn] at hmem
      cases hmem
    | dropContainer tr0 => intro _; rfl

/-- C2: letting a container and its `N` snapshot handles leave scope
issues the `N` delete commands (in some handle order) strictly before
the container's single stop command, and at no reachable point of the
teardown has the container been dropped while a snapshot handle was
still live. -/
theorem snapshots_deleted_before_stop (c : Container) (snaps : List Snapshot)
    (tr : List Args)
    (hof : ∀ s ∈ snaps, s._container = c)
    (h : Relation.ReflTransGen (TeardownStep c) (true, snaps, []) (false, [], tr)) :
    (∃ dels, List.Perm dels (snaps.map deleteArgs) ∧ tr = dels ++ [stopArgs c]) ∧
    (∀ alive live tr2, Relation.ReflTransGen (TeardownStep c) (true, snaps, [])
        (alive, live, tr2) → alive = false → live = []) := by
  constructor
  · obtain ⟨dels, hperm, htr⟩ := teardown_trace_general c tr (true, snaps, []) h
    exact ⟨dels, hperm, by simpa using htr⟩
  · intro alive live tr2 h2 halive
    exact teardown_container_last c (true, snaps, []) (alive, live, tr2) h2
      (by simp) halive

/-- C2 witness: a container `t1` with two snapshots; the explicit
teardown run deletes both snapshots and then stops the container, and
the theorem recovers that trace shape. -/
theorem snapshots_deleted_before_stop_witness :
    (∃ dels, List.Perm dels
        (([⟨⟨"t1"⟩, "t1/s1"⟩, ⟨⟨"t1"⟩, "t1/s2"⟩] : List Snapshot).map deleteArgs) ∧
      [["delete", "t1/s1"], ["delete", "t1/s2"], ["stop", "t1"]]
        = dels ++ [stopArgs ⟨"t1"⟩]) ∧
    (∀ alive live tr2,
      Relation.ReflTransGen (TeardownStep ⟨"t1"⟩)
        (true, [⟨⟨"t1"⟩, "t1/s1"⟩, ⟨⟨"t1"⟩, "t1/s2"⟩], []) (alive, live, tr2) →
      alive = false → live = []) := by
  refine snapshots_deleted_before_stop ⟨"t1"⟩
      [⟨⟨"t1"⟩, "t1/s1"⟩, ⟨⟨"t1"⟩, "t1/s2"⟩]
      [["delete", "t1/s1"], ["delete", "t1/s2"], ["stop", "t1"]]
      (by intro s hs; simp at hs; rcases hs with h | h <;> simp [h]) ?_
  exact Relation.ReflTransGen.head
    (TeardownStep.dropSnap true [⟨⟨"t1"⟩, "t1/s1"⟩, ⟨⟨"t1"⟩, "t1/s2"⟩]
      ⟨⟨"t1"⟩, "t1/s1"⟩ [] (by decide))
    (Relation.ReflTransGen.head
      (TeardownStep.dropSnap true
        ([⟨⟨"t1"⟩, "t1/s1"⟩, ⟨⟨"t1"⟩, "t1/s2"⟩].erase ⟨⟨"t1"⟩, "t1/s1"⟩)
        ⟨⟨"t1"⟩, "t1/s2"⟩ ([] ++ [deleteArgs ⟨⟨"t1"⟩, "t1/s1"⟩]) (by decide))
      (Relation.ReflTransGen.single (TeardownStep.dropContainer _)))

/-- C6: for a single-name structured fetch whose listing command
succeeds, if the parsed JSON array holds exactly one record that record
is returned unmodified, and if it holds zero or several records the
fetch surfaces the `NotFound`-kind error — for `Info::new` and
`Image::new` alike. -/
theorem single_fetch_exactly_one (w : World) (location : Location) (name : String) :
    ((w.status (Info.newArgs location name)).success = true →
      ∀ l, Info.fromSlice (w.stdout (Info.newArgs location name)) = .ok l →
        (∀ r, l = [r] → (Info.newT w location name).1 = .ok r) ∧
        (l.length ≠ 1 →
          (Info.newT w location name).1 =
            .error ⟨.notFound, "LXD info: " ++ name ++ " not found"⟩)) ∧
    ((w.status (Image.newArgs location name)).success = true →
      ∀ l, Image.fromSlice (w.stdout (Image.newArgs location name)) = .ok l →
        (∀ r, l = [r] → (Image.newT w location name).1 = .ok r) ∧
        (l.length ≠ 1 →
          (Image.newT w location name).1 =
            .error ⟨.notFound, "LXD image: " ++ name ++ " not found"⟩)) := by
  constructor
  · intro hst l hl
    have hout : lxc_output w (Info.newArgs location name)
        = .ok (w.stdout (Info.newArgs location name)) := by
      simp [lxc_output, hst]
    constructor
    · rintro r rfl
      simp [Info.newT, hout, hl]
    · intro hlen
      match l, hlen with
      | [], _ => simp [Info.newT, hout, hl]
      | a :: b :: t, _ => simp [Info.newT, hout, hl]
      | [a], hlen => exact absurd rfl hlen
  · intro hst l hl
    have hout : lxc_output w (Image.newArgs location name)
        = .ok (w.stdout (Image.newArgs location name)) := by
      simp [lxc_output, hst]
    constructor
    · rintro r rfl
      simp [Image.newT, hout, hl]
    · intro hlen
      match l, hlen with
      | [], _ => simp [Image.newT, hout, hl]
      | a :: b :: t, _ => simp [Image.newT, hout, hl]
      | [a], hlen => exact absurd rfl hlen

/-- C6 witness: a singleton listing returns its record unmodified; an
empty listing surfaces the `NotFound`-kind error. -/
theorem single_fetch_exactly_one_witness :
    (Info.newT (okWorld (Json.arr [Info.toJson sampleInfo])) Location.Local "t1").1
      = .ok sampleInfo ∧
    (Image.newT (okWorld (Json.arr [])) Location.Local "missing").1
      = .error ⟨.notFound, "LXD image: " ++ "missing" ++ " not found"⟩ :=
  ⟨((single_fetch_exactly_one (okWorld (Json.arr [Info.toJson sampleInfo]))
      Location.Local "t1").1 rfl [sampleInfo]
      (decodeInfoElems_enc [sampleInfo])).1 sampleInfo rfl,
   ((single_fetch_exactly_one (okWorld (Json.arr []))
      Location.Local "missing").2 rfl [] rfl).2 (by decide)⟩

/-- C7 counterexample: `Image::new` does not anchor its name filter —
for the image listing of name `t` the issued filter argument is the bare
`t`, and the anchored form `t$` appears nowhere in the argument vector,
while `Info::new` does issue the anchored `t$`. -/
theorem image_filter_unanchored :
    Image.newArgs Location.Local "t" = ["image", "list", "t", "--format", "json"] ∧
    ("t" ++ "$") ∉ Image.newArgs Location.Local "t" ∧
    Info.newArgs Location.Local "t" = ["list", "t" ++ "$", "--format", "json"] := by
  decide

/-- C7 (amended): `Info::new` scopes its listing with the anchored
exact-match filter `<name>$`; `Image::new` scopes its listing with the
bare name, unanchored.  Each fetch issues exactly its one listing
command. -/
theorem fetch_filter_anchoring (w : World) (remote name : String) :
    Info.newArgs Location.Local name = ["list", name ++ "$", "--format", "json"] ∧
    Info.newArgs (Location.Remote remote) name
      = ["list", remote ++ ":", name ++ "$", "--format", "json"] ∧
    Image.newArgs Location.Local name = ["image", "list", name, "--format", "json"] ∧
    Image.newArgs (Location.Remote remote) name
      = ["image", "list", remote ++ ":", name, "--format", "json"] ∧
    (∀ location, (Info.newT w location name).2 = [Info.newArgs location name] ∧
      (Image.newT w location name).2 = [Image.newArgs location name]) :=
  ⟨rfl, rfl, rfl, rfl, fun _ => ⟨rfl, rfl⟩⟩

/-- C8 counterexample: `push("/tmp/x", "/root/x", false)` on container
`t1` issues destination `t1//root/x` (the full name joined to the
absolute destination with an extra slash), not `t1/root/x`. -/
theorem push_dest_double_slash :
    Container.pushArgs ⟨"t1"⟩ "/tmp/x" "/root/x" false
      = ["file", "push", "/tmp/x", "t1//root/x"] ∧
    Container.pushArgs ⟨"t1"⟩ "/tmp/x" "/root/x" false
      ≠ ["file", "push", "/tmp/x", "t1/root/x"] := by
  decide

/-- C8 (amended): `push` issues one `file push` command whose
destination is `<full-name>/<dest>` verbatim — so a destination that
already starts with `/` yields a double slash — and `recursive = true`
inserts `-r` after `file push`; concretely,
`push("/tmp/x", "/root/x", false)` on `t1` issues
`file push /tmp/x t1//root/x`. -/
theorem push_args_shape (w : World) (cname source dest : String) :
    Container.pushArgs ⟨cname⟩ source dest false
      = ["file", "push", source, cname ++ "/" ++ dest] ∧
    Container.pushArgs ⟨cname⟩ source dest true
      = ["file", "push", "-r", source, cname ++ "/" ++ dest] ∧
    (∀ recursive, (Container.pushT w ⟨cname⟩ source dest recursive).2
      = [Container.pushArgs ⟨cname⟩ source dest recursive]) ∧
    Container.pushArgs ⟨"t1"⟩ "/tmp/x" "/root/x" false
      = ["file", "push", "/tmp/x", "t1//root/x"] ∧
    Container.pushArgs ⟨"t1"⟩ "/tmp/x" "/root/x" true
      = ["file", "push", "-r", "/tmp/x", "t1//root/x"] :=
  ⟨rfl, rfl, fun _ => rfl, by decide, by decide⟩

/-- C9: serializing a fetched `Info` or `Image` record back to its JSON
shape and parsing the result yields the original record, field for
field. -/
theorem record_json_roundtrip (i : Info) (im : Image) :
    Info.fromJson (Info.toJson i) = .ok i ∧
    Image.fromJson (Image.toJson im) = .ok im :=
  ⟨info_roundtrip i, image_roundtrip im⟩

/-- C10: a failed external command is surfaced as an `Other`-kind error
whose message carries the full argument vector and the exit status (for
both invocation paths), and among the errors the fetches construct, the
`NotFound` kind appears exactly when the parsed listing held a number of
records other than one — a parse failure or command failure is `Other`.
-/
theorem error_kind_taxonomy (w : World) (args : Args) (location : Location)
    (name : String) :
    (∀ e, lxc w args = .error e →
      e.kind = ErrorKind.other ∧
      e.message = "LXD " ++ reprArgs args ++ " failed with " ++ (w.status args).descr) ∧
    (∀ e, lxc_output w args = .error e →
      e.kind = ErrorKind.other ∧
      e.message = "LXD " ++ reprArgs args ++ " failed with " ++ (w.status args).descr) ∧
    (∀ e, (Info.newT w location name).1 = .error e →
      (e.kind = ErrorKind.notFound ↔
        (w.status (Info.newArgs location name)).success = true ∧
        ∃ l, Info.fromSlice (w.stdout (Info.newArgs location name)) = .ok l ∧
          l.length ≠ 1)) ∧
    (∀ e, (Image.newT w location name).1 = .error e →
      (e.kind = ErrorKind.notFound ↔
        (w.status (Image.newArgs location name)).success = true ∧
        ∃ l, Image.fromSlice (w.stdout (Image.newArgs location name)) = .ok l ∧
          l.length ≠ 1)) := by
  refine ⟨?_, ?_, ?_, ?_⟩
  · intro e he
    simp only [lxc] at he
    split_ifs at he with h
    · injection he with h2
      subst h2
      exact ⟨rfl, rfl⟩
  · intro e he
    simp only [lxc_output] at he
    split_ifs at he with h
    · injection he with h2
      subst h2
      exact ⟨rfl, rfl⟩
  · intro e he
    by_cases hst : (w.status (Info.newArgs location name)).success
    · have hout : lxc_output w (Info.newArgs location name)
          = .ok (w.stdout (Info.newArgs location name)) := by
        simp [lxc_output, hst]
      rcases hsl : Info.fromSlice (w.stdout (Info.newArgs location name)) with err | l
      · simp [Info.newT, hout, hsl] at he
        subst he
        simp [hsl]
      · match l, hsl with
        | [], hsl =>
          simp [Info.newT, hout, hsl] at he
          subst he
          simp [hsl, hst]
        | [r], hsl =>
          simp [Info.newT, hout, hsl] at he
        | a :: b :: t, hsl =>
          simp [Info.newT, hout, hsl] at he
          subst he
          simp [hsl, hst]
    · have hout : lxc_output w (Info.newArgs location name)
          = .error ⟨.other, lxcFailMsg (Info.newArgs location name)
              (w.status (Info.newArgs location name))⟩ := by
        simp [lxc_output, hst]
      simp [Info.newT, hout] at he
      subst he
      simp [hst]
  · intro e he
    by_cases hst : (w.status (Image.newArgs location name)).success
    · have hout : lxc_output w (Image.newArgs location name)
          = .ok (w.stdout (Image.newArgs location name)) := by
        simp [lxc_output, hst]
      rcases hsl : Image.fromSlice (w.stdout (Image.newArgs location name)) with err | l
      · simp [Image.newT, hout, hsl] at he
        subst he
        simp [hsl]
      · match l, hsl with
        | [], hsl =>
          simp [Image.newT, hout, hsl] at he
          subst he
          simp [hsl, hst]
        | [r], hsl =>
          simp [Image.newT, hout, hsl] at he
        | a :: b :: t, hsl =>
          simp [Image.newT, hout, hsl] at he
          subst he
          simp [hsl, hst]
    · have hout : lxc_output w (Image.newArgs location name)
          = .error ⟨.other, lxcFailMsg (Image.newArgs location name)
              (w.status (Image.newArgs location name))⟩ := by
        simp [lxc_output, hst]
      simp [Image.newT, hout] at he
      subst he
      simp [hst]

/-- C10 witness: a concrete failed command carries the `Other` kind and
the argument-vector message; a concrete empty single-name fetch carries
the `NotFound` kind, matching the zero-or-multiple-match condition. -/
theorem error_kind_taxonomy_witness :
    ((⟨ErrorKind.other, lxcFailMsg ["stop", "t1"] errStatus⟩ : IoError).kind
        = ErrorKind.other ∧
     (⟨ErrorKind.other, lxcFailMsg ["stop", "t1"] errStatus⟩ : IoError).message
        = "LXD " ++ reprArgs ["stop", "t1"] ++ " failed with "
            ++ (downWorld.status ["stop", "t1"]).descr) ∧
    ((⟨ErrorKind.notFound, "LXD info: " ++ "t0" ++ " not found"⟩ : IoError).kind
        = ErrorKind.notFound ↔
      ((okWorld (Json.arr [])).status (Info.newArgs Location.Local "t0")).success
        = true ∧
      ∃ l, Info.fromSlice
          ((okWorld (Json.arr [])).stdout (Info.newArgs Location.Local "t0"))
        = .ok l ∧ l.length ≠ 1) :=
  ⟨(error_kind_taxonomy downWorld ["stop", "t1"] Location.Local "t0").1 _ rfl,
   (error_kind_taxonomy (okWorld (Json.arr [])) ["stop", "t1"]
      Location.Local "t0").2.2.1 _ rfl⟩

end Lxd
